import Mathlib

/-!
Shallow embedding of `src/app/main.py` (gaming-news RSS → Discord webhook
relay): entry normalization, the SQLite dedup ledger, the sort step, the
webhook delivery client with its single 429 retry, startup configuration
validation, and the per-cycle scheduler loop.
-/

namespace GamingNews

/-- A raw parsed feed entry, as produced by the feed-parsing collaborator.
Each field models `entry.get(key)`: `none` is Python `None` (key absent).
`published_parsed`/`updated_parsed` are the parsed timestamps as integers on a
time axis with the Unix epoch at `0` (Python compares `struct_time` tuples,
which is order-isomorphic to this axis). -/
structure Entry where
  id : Option String
  guid : Option String
  link : Option String
  title : Option String
  published : Option String
  updated : Option String
  published_parsed : Option Int
  updated_parsed : Option Int
deriving DecidableEq, Repr

/-- The whitespace set of Python's `str.strip()` (ASCII part). -/
def pyIsSpace (c : Char) : Bool :=
  c == ' ' || c == '\t' || c == '\n' || c == '\r' || c == '\x0b' || c == '\x0c'

/-- Python's `s.strip()`: drop leading and trailing whitespace. -/
def pyStrip (s : String) : String :=
  ⟨((s.data.dropWhile pyIsSpace).reverse.dropWhile pyIsSpace).reverse⟩

/-- Python truthiness of an optional string: `None` and `""` are falsy. -/
def truthy : Option String → Bool
  | none => false
  | some s => !(s == "")

/-- Models the Python expression `a or b or ""` on optional strings. -/
def firstTruthy (a b : Option String) : String :=
  if truthy a then a.getD "" else if truthy b then b.getD "" else ""

/-- `normalize_id` from the source: id/guid → link → `title::published` fallback. -/
def normalize_id (e : Entry) : String :=
  if truthy e.id then pyStrip (e.id.getD "")
  else if truthy e.guid then pyStrip (e.guid.getD "")
  else if truthy e.link then pyStrip (e.link.getD "")
  else
    pyStrip (e.title.getD "") ++ "::" ++ pyStrip (firstTruthy e.published e.updated)

/-- The sort key of `sort_entries_newest_first`:
`e.get("published_parsed") or e.get("updated_parsed")`, with `None` replaced
by `time.gmtime(0)` (the Unix epoch, i.e. `0` on our time axis). -/
def entry_sort_key (e : Entry) : Int :=
  match e.published_parsed with
  | some t => t
  | none =>
    match e.updated_parsed with
    | some t => t
    | none => 0

/-- The order used by `sorted(entries, key=key, reverse=True)`: a stable sort
placing larger keys first. -/
def newestFirstRel (a b : Entry) : Prop :=
  entry_sort_key b ≤ entry_sort_key a

instance : DecidableRel newestFirstRel := fun a b =>
  inferInstanceAs (Decidable (entry_sort_key b ≤ entry_sort_key a))

/-- `sort_entries_newest_first` from the source: Python's `sorted` with
`reverse=True` is the stable descending sort by key, which is exactly
insertion sort under `newestFirstRel`. -/
def sort_entries_newest_first (entries : List Entry) : List Entry :=
  List.insertionSort newestFirstRel entries

/-- One row of the `posted_items` SQLite table. -/
structure Row where
  item_id : String
  title : String
  link : String
  posted_at : Nat
deriving DecidableEq, Repr

/-- The `posted_items` table, rows in insertion order; `item_id` is the
primary key. -/
abbrev Ledger := List Row

/-- `db_has` from the source: `SELECT 1 FROM posted_items WHERE item_id = ?`. -/
def db_has (db : Ledger) (itemId : String) : Bool :=
  db.any fun r => r.item_id == itemId

/-- `db_add` from the source: `INSERT OR IGNORE` keyed on the primary key
`item_id` — a no-op when the id is already present, an append otherwise.
`now` models `int(time.time())`. -/
def db_add (db : Ledger) (itemId title link : String) (now : Nat) : Ledger :=
  if db_has db itemId then db else db ++ [⟨itemId, title, link, now⟩]

/-- Outcome of one webhook delivery call: `ok` models a normal return,
`failed s` models `raise RuntimeError(...)` after final status `s`. -/
inductive DeliverOutcome where
  | ok : DeliverOutcome
  | failed : Nat → DeliverOutcome
deriving DecidableEq, Repr

/-- An HTTP response to the webhook POST. `retryAfterParsed` models the value
of `float(resp.json().get("retry_after", 2.0))` when that expression
evaluates without raising to a number; it is `none` when the body is not
JSON or the value is unconvertible (every such path falls back to `2.0`).
An absent `retry_after` key yields the default `some` value only through
`getD 2` below, matching `data.get("retry_after", 2.0)`. -/
structure HttpResponse where
  status : Nat
  retryAfterParsed : Option Rat
deriving DecidableEq, Repr

/-- Result of `post_to_discord_webhook`: the sleeps performed (in seconds),
how many POSTs were issued, and the outcome. -/
structure DeliverResult where
  sleeps : List Rat
  posts : Nat
  outcome : DeliverOutcome
deriving DecidableEq, Repr

/-- The success check `resp.status_code in (200, 204)`. -/
def isSuccessStatus (s : Nat) : Bool :=
  s == 200 || s == 204

/-- `post_to_discord_webhook` from the source, over the responses the
transport returns for the first POST (`r1`) and, if issued, the retry
(`r2`): on 429 it sleeps the parsed `retry_after` (default 2.0), POSTs once
more, then the final response must be 200 or 204 or the call raises. -/
def post_to_discord_webhook (r1 r2 : HttpResponse) : DeliverResult :=
  if r1.status = 429 then
    let ra := r1.retryAfterParsed.getD 2
    if isSuccessStatus r2.status then ⟨[ra], 2, DeliverOutcome.ok⟩
    else ⟨[ra], 2, DeliverOutcome.failed r2.status⟩
  else
    if isSuccessStatus r1.status then ⟨[], 1, DeliverOutcome.ok⟩
    else ⟨[], 1, DeliverOutcome.failed r1.status⟩

/-- Trace of one polling cycle body (the `for entry in entries` loop):
final table, `posted_count`, and the entries for which the webhook POST
(`attempts`), `db_add` (`recorded`) and `db_has` (`queried`) were invoked,
in order; `aborted` is true when a delivery `RuntimeError` escaped the loop
to the cycle-level exception handler. -/
structure CycleResult where
  db : Ledger
  posted : Nat
  attempts : List Entry
  recorded : List Entry
  queried : List Entry
  aborted : Bool
deriving DecidableEq, Repr

/-- Trace bookkeeping: note that `db_has` was consulted for `e`. -/
def withQuery (e : Entry) (r : CycleResult) : CycleResult :=
  ⟨r.db, r.posted, r.attempts, r.recorded, e :: r.queried, r.aborted⟩

/-- Trace bookkeeping: note that `e` was queried, delivered and recorded. -/
def withDelivered (e : Entry) (r : CycleResult) : CycleResult :=
  ⟨r.db, r.posted, e :: r.attempts, e :: r.recorded, e :: r.queried, r.aborted⟩

/-- The per-item loop of `main`'s cycle, over an oracle `dk` telling which
entries the webhook delivery succeeds for. A `false` from `dk` models
`post_to_discord_webhook` raising: the loop is not protected per item, so
the exception aborts the remainder of the cycle. -/
def cycleLoop (dk : Entry → Bool) (mp now : Nat) :
    Nat → Ledger → List Entry → CycleResult
  | posted, db, [] => ⟨db, posted, [], [], [], false⟩
  | posted, db, e :: rest =>
    if mp ≤ posted then ⟨db, posted, [], [], [], false⟩
    else if pyStrip (e.title.getD "") = "" ∨ pyStrip (e.link.getD "") = "" then
      cycleLoop dk mp now posted db rest
    else if db_has db (normalize_id e) = true then
      withQuery e (cycleLoop dk mp now posted db rest)
    else if dk e = true then
      withDelivered e (cycleLoop dk mp now (posted + 1)
        (db_add db (normalize_id e) (pyStrip (e.title.getD "")) (pyStrip (e.link.getD "")) now) rest)
    else
      ⟨db, posted, [e], [], [e], true⟩

/-- One cycle of `main` after a successful fetch: sort newest first, then
run the per-item loop with `posted_count = 0`. -/
def runCycle (dk : Entry → Bool) (mp now : Nat) (db : Ledger)
    (entries : List Entry) : CycleResult :=
  cycleLoop dk mp now 0 db (sort_entries_newest_first entries)

/-- The startup configuration read from the environment: the three required
keys, each `none` when unset. -/
structure Config where
  webhookUrl : Option String
  rssUrl : Option String
  sqlitePath : Option String
deriving DecidableEq, Repr

/-- `require_env` from the source: `if not v: raise RuntimeError(...)`. -/
def require_env (v : Option String) : Except String String :=
  match v with
  | none => Except.error "missing"
  | some s => if s = "" then Except.error "missing" else Except.ok s

/-- Characters allowed in a URI scheme by `urllib.parse`. -/
def isSchemeChar (c : Char) : Bool :=
  c.isAlpha || c.isDigit || c == '+' || c == '-' || c == '.'

/-- The characters before the first `:`, or `none` when there is no `:`. -/
def beforeColon : List Char → Option (List Char)
  | [] => none
  | c :: cs => if c = ':' then some [] else (beforeColon cs).map (c :: ·)

/-- The `scheme` attribute of `urllib.parse.urlparse(url)`: the lowercased
text before the first `:` when it is a wellformed scheme (nonempty, starts
with a letter, scheme characters only), `""` otherwise. -/
def schemeOf (url : String) : String :=
  match beforeColon url.data with
  | none => ""
  | some [] => ""
  | some (c :: cs) =>
    if c.isAlpha && (c :: cs).all isSchemeChar then ⟨(c :: cs).map Char.toLower⟩
    else ""

/-- Python's `s.startswith(p)`. -/
def pyStartsWith (s p : String) : Bool :=
  p.data.isPrefixOf s.data

/-- The fatal startup validation in `main`: the three `require_env` calls in
source order, then `if not parsed.scheme.startswith("http"): raise`. -/
def startup_validate (cfg : Config) : Except String Unit :=
  match require_env cfg.webhookUrl with
  | Except.error e => Except.error e
  | Except.ok w =>
    match require_env cfg.rssUrl with
    | Except.error e => Except.error e
    | Except.ok _ =>
      match require_env cfg.sqlitePath with
      | Except.error e => Except.error e
      | Except.ok _ =>
        if pyStartsWith (schemeOf w) "http" then Except.ok ()
        else Except.error "WEBHOOK_URL invalid (must be https://...)"

/-- Delivery oracle that always succeeds. -/
def deliverAlways : Entry → Bool := fun _ => true

/-- Delivery oracle that raises exactly for the entry with the given id. -/
def deliverFailOn (bad : String) : Entry → Bool := fun e =>
  !(normalize_id e == bad)

/-- Concrete eligible entries for the cap and failure scenarios. -/
def ce1 : Entry := ⟨some "id1", none, some "https://ex/1", some "Title 1", none, none, some 50, none⟩

def ce2 : Entry := ⟨some "id2", none, some "https://ex/2", some "Title 2", none, none, some 40, none⟩

def ce3 : Entry := ⟨some "id3", none, some "https://ex/3", some "Title 3", none, none, some 30, none⟩

def ce4 : Entry := ⟨some "id4", none, some "https://ex/4", some "Title 4", none, none, some 20, none⟩

def ce5 : Entry := ⟨some "id5", none, some "https://ex/5", some "Title 5", none, none, some 10, none⟩

/-- Entry published 2024-01-01T00:00:00Z. -/
def tEntry1 : Entry := ⟨none, none, some "https://ex/a", some "A", some "2024-01-01T00:00:00Z", none, some 1704067200, none⟩

/-- Entry published 2024-01-03T00:00:00Z. -/
def tEntry2 : Entry := ⟨none, none, some "https://ex/b", some "B", some "2024-01-03T00:00:00Z", none, some 1704240000, none⟩

/-- Entry with no publish timestamp at all. -/
def tEntry3 : Entry := ⟨none, none, some "https://ex/c", some "C", none, none, none, none⟩

/-- Entry whose parsed publish time is one second before the Unix epoch. -/
def preEpochEntry : Entry := ⟨none, none, some "https://ex/e", some "E", some "1969-12-31T23:59:59Z", none, some (-1), none⟩

/-- Entry used for the identity-fallback example of the spec. -/
def patchNotesEntry : Entry := ⟨none, none, none, some "Patch Notes", some "2024-02-01T00:00:00Z", none, none, none⟩

/-- Entry whose title is whitespace-only, hence invalid after stripping. -/
def badEntry : Entry := ⟨some "idb", none, some "https://ex/bad", some "   ", none, none, some 60, none⟩

lemma db_has_db_add_self (db : Ledger) (i t l : String) (n : Nat) :
    db_has (db_add db i t l n) i = true := by
  by_cases h : db_has db i = true
  · rw [db_add, if_pos h]; exact h
  · rw [db_add, if_neg h]
    simp [db_has, List.any_append]

lemma db_add_of_has {db : Ledger} {i : String} (t l : String) (n : Nat)
    (h : db_has db i = true) : db_add db i t l n = db := by
  rw [db_add, if_pos h]

lemma db_has_db_add_mono {db : Ledger} {i : String} (i2 t l : String) (n : Nat)
    (h : db_has db i = true) : db_has (db_add db i2 t l n) i = true := by
  by_cases h2 : db_has db i2 = true
  · rw [db_add, if_pos h2]; exact h
  · rw [db_add, if_neg h2]
    rw [db_has] at h ⊢
    simp only [List.any_append, h, Bool.true_or]

/-- Claim C2: `record` is an idempotent insert — after a first `record(id, ...)`
any number of repeated `record(id, ...)` calls leave the store unchanged
(`INSERT OR IGNORE` never errors and never duplicates the primary key), the
table holds exactly one row for a freshly recorded id, and `has(id)` stays
true afterwards, also across later `record` calls for other ids. -/
theorem db_add_idempotent_visible :
    ∀ (db : Ledger) (i t l : String) (n : Nat) (t2 l2 : String) (n2 : Nat),
      db_has (db_add db i t l n) i = true
      ∧ (∀ k : Nat,
          Nat.iterate (fun d => db_add d i t2 l2 n2) k (db_add db i t l n) = db_add db i t l n)
      ∧ (db_add db i t l n).countP (fun r => r.item_id == i)
          = (if db_has db i then db.countP (fun r => r.item_id == i) else 1)
      ∧ (∀ (i2 t3 l3 : String) (n3 : Nat),
          db_has (db_add (db_add db i t l n) i2 t3 l3 n3) i = true) := by
  intro db i t l n t2 l2 n2
  refine ⟨db_has_db_add_self db i t l n, ?_, ?_, ?_⟩
  · intro k
    induction k with
    | zero => rfl
    | succ k ih =>
      rw [Function.iterate_succ_apply, db_add_of_has t2 l2 n2 (db_has_db_add_self db i t l n), ih]
  · by_cases h : db_has db i
    · simp [db_add, h]
    · have hz : db.countP (fun r => r.item_id == i) = 0 := by
        rw [db_has, List.any_eq_true] at h
        refine List.countP_eq_zero.mpr ?_
        intro r hr hpr
        exact h ⟨r, hr, hpr⟩
      rw [db_add, if_neg h, if_neg h, List.countP_append, hz]
      simp
  · intro i2 t3 l3 n3
    exact db_has_db_add_mono i2 t3 l3 n3 (db_has_db_add_self db i t l n)

/-- Claim C10: once an id is in the ledger, a later `record` with the same id
but different title/link/time leaves the table — including the originally
stored title, link and `posted_at` — completely unchanged. -/
theorem record_preserves_existing_row :
    ∀ (db : Ledger) (i t2 l2 : String) (n2 : Nat),
      db_has db i = true → db_add db i t2 l2 n2 = db := by
  intro db i t2 l2 n2 h
  exact db_add_of_has t2 l2 n2 h

/-- Witness for C10 at a concrete store: the row recorded first survives a
conflicting re-record untouched. -/
theorem record_preserves_existing_row_witness :
    db_add [⟨"a", "T", "L", 5⟩] "a" "X" "Y" 9 = [⟨"a", "T", "L", 5⟩] :=
  record_preserves_existing_row [⟨"a", "T", "L", 5⟩] "a" "X" "Y" 9 (by decide)

/-- Claim C5: `normalize_id` follows the exact fallback order — a truthy `id`
(then `guid`) stripped, else a truthy `link` stripped, else the composite
`title::published-or-updated`; the spec's "Patch Notes" example computes the
expected composite id. -/
theorem normalize_id_fallback_order :
    ∀ e : Entry,
      (truthy e.id = true → normalize_id e = pyStrip (e.id.getD ""))
      ∧ (truthy e.id = false → truthy e.guid = true →
          normalize_id e = pyStrip (e.guid.getD ""))
      ∧ (truthy e.id = false → truthy e.guid = false → truthy e.link = true →
          normalize_id e = pyStrip (e.link.getD ""))
      ∧ (truthy e.id = false → truthy e.guid = false → truthy e.link = false →
          normalize_id e
            = pyStrip (e.title.getD "") ++ "::" ++ pyStrip (firstTruthy e.published e.updated))
      ∧ normalize_id patchNotesEntry = "Patch Notes::2024-02-01T00:00:00Z" := by
  intro e
  refine ⟨?_, ?_, ?_, ?_, by decide⟩ <;> intros <;> simp [normalize_id, *]

/-- Witness for C5: the fallback branches evaluated at concrete entries. -/
theorem normalize_id_fallback_order_witness :
    normalize_id ⟨some " g1 ", none, some "L", some "T", none, none, none, none⟩ = "g1"
    ∧ normalize_id patchNotesEntry = "Patch Notes::2024-02-01T00:00:00Z" := by
  constructor
  · have h := (normalize_id_fallback_order
      ⟨some " g1 ", none, some "L", some "T", none, none, none, none⟩).1 (by decide)
    rw [h]; decide
  · exact (normalize_id_fallback_order patchNotesEntry).2.2.2.2

/-- Claim C6: on a 429 first response the client sleeps exactly the parsed
`retry_after` (2.0 when absent/unparsable), issues exactly one retry, and the
call succeeds iff the final status is 200 or 204, raising with the retry's
status otherwise; a non-429 first response is final — one POST, no sleep,
success iff 200 or 204. -/
theorem rate_limit_retry_once :
    ∀ r1 r2 : HttpResponse,
      (r1.status = 429 →
        (post_to_discord_webhook r1 r2).sleeps = [r1.retryAfterParsed.getD 2]
        ∧ (post_to_discord_webhook r1 r2).posts = 2
        ∧ ((post_to_discord_webhook r1 r2).outcome = DeliverOutcome.ok
            ↔ (r2.status = 200 ∨ r2.status = 204))
        ∧ ((post_to_discord_webhook r1 r2).outcome ≠ DeliverOutcome.ok →
            (post_to_discord_webhook r1 r2).outcome = DeliverOutcome.failed r2.status))
      ∧ (r1.status ≠ 429 →
        (post_to_discord_webhook r1 r2).sleeps = []
        ∧ (post_to_discord_webhook r1 r2).posts = 1
        ∧ ((post_to_discord_webhook r1 r2).outcome = DeliverOutcome.ok
            ↔ (r1.status = 200 ∨ r1.status = 204))) := by
  intro r1 r2
  constructor
  · intro h
    by_cases hs : isSuccessStatus r2.status
    · have hs2 : r2.status = 200 ∨ r2.status = 204 := by
        simpa [isSuccessStatus] using hs
      simp [post_to_discord_webhook, h, hs, hs2]
    · have hs2 : ¬(r2.status = 200 ∨ r2.status = 204) := by
        simpa [isSuccessStatus] using hs
      simp [post_to_discord_webhook, h, hs, hs2]
  · intro h
    by_cases hs : isSuccessStatus r1.status
    · have hs2 : r1.status = 200 ∨ r1.status = 204 := by
        simpa [isSuccessStatus] using hs
      simp [post_to_discord_webhook, h, hs, hs2]
    · have hs2 : ¬(r1.status = 200 ∨ r1.status = 204) := by
        simpa [isSuccessStatus] using hs
      simp [post_to_discord_webhook, h, hs, hs2]

/-- Witness for C6: a 429 with `retry_after = 5` followed by a failing retry
sleeps 5 seconds, posts twice, and raises with the retry's status. -/
theorem rate_limit_retry_once_witness :
    (post_to_discord_webhook ⟨429, some 5⟩ ⟨500, none⟩).sleeps = [(5 : Rat)]
    ∧ (post_to_discord_webhook ⟨429, some 5⟩ ⟨500, none⟩).posts = 2
    ∧ (post_to_discord_webhook ⟨429, some 5⟩ ⟨500, none⟩).outcome = DeliverOutcome.failed 500
    ∧ (post_to_discord_webhook ⟨403, none⟩ ⟨0, none⟩).posts = 1 := by
  have h1 := (rate_limit_retry_once ⟨429, some 5⟩ ⟨500, none⟩).1 rfl
  have h2 := (rate_limit_retry_once ⟨403, none⟩ ⟨0, none⟩).2 (by decide)
  refine ⟨by simpa using h1.1, h1.2.1, ?_, h2.2.1⟩
  exact h1.2.2.2 (by decide)

/-- Counterexample for C9: a configuration whose `WEBHOOK_URL` scheme is
`httpx` — not `http` and not `https` — passes startup validation, because the
code only checks `parsed.scheme.startswith("http")`. -/
theorem startup_accepts_non_http_scheme_cex :
    schemeOf "httpx://discord.example/hook" ≠ "http"
    ∧ schemeOf "httpx://discord.example/hook" ≠ "https"
    ∧ startup_validate
        ⟨some "httpx://discord.example/hook", some "https://feeds.example/rss",
          some "/data/posted.db"⟩ = Except.ok () :=
  ⟨by decide, by decide, rfl⟩

/-- Claim C9 (amended): startup validation succeeds exactly when the three
required keys are present and nonempty and the scheme of `WEBHOOK_URL`
merely starts with the string "http" (so `http` and `https` pass, but so
does any other scheme with that prefix, e.g. `httpx`). -/
theorem startup_validation_characterization :
    ∀ cfg : Config,
      startup_validate cfg = Except.ok () ↔
        (truthy cfg.webhookUrl = true ∧ truthy cfg.rssUrl = true
          ∧ truthy cfg.sqlitePath = true
          ∧ pyStartsWith (schemeOf (cfg.webhookUrl.getD "")) "http" = true) := by
  rintro ⟨w, r, s⟩
  rcases w with _ | w
  · simp [startup_validate, require_env, truthy]
  rcases r with _ | r
  · by_cases hw : w = "" <;> simp [startup_validate, require_env, truthy, hw]
  rcases s with _ | s
  · by_cases hw : w = "" <;> by_cases hr : r = "" <;>
      simp [startup_validate, require_env, truthy, hw, hr]
  by_cases hw : w = "" <;> by_cases hr : r = "" <;> by_cases hs : s = "" <;>
    by_cases hp : pyStartsWith (schemeOf w) "http" = true <;>
    simp [startup_validate, require_env, truthy, hw, hr, hs, hp]

/-- Witness for C9 (amended): a fully valid https configuration is accepted. -/
theorem startup_validation_characterization_witness :
    startup_validate
      ⟨some "https://discord.example/hook", some "https://feeds.example/rss",
        some "/data/posted.db"⟩ = Except.ok () :=
  (startup_validation_characterization
    ⟨some "https://discord.example/hook", some "https://feeds.example/rss",
      some "/data/posted.db"⟩).mpr (by refine ⟨rfl, rfl, rfl, ?_⟩; decide)

instance : IsTotal Entry newestFirstRel :=
  ⟨fun a b => le_total (entry_sort_key b) (entry_sort_key a)⟩

instance : IsTrans Entry newestFirstRel :=
  ⟨fun _ _ _ h1 h2 => le_trans h2 h1⟩

lemma orderedInsert_filter_key (e : Entry) (k : Int) :
    ∀ l : List Entry,
      (List.orderedInsert newestFirstRel e l).filter (fun x => entry_sort_key x == k)
        = if entry_sort_key e == k
          then e :: l.filter (fun x => entry_sort_key x == k)
          else l.filter (fun x => entry_sort_key x == k) := by
  intro l
  induction l with
  | nil =>
    by_cases hk : entry_sort_key e == k <;> simp [List.orderedInsert, List.filter, hk]
  | cons x xs ih =>
    by_cases hr : newestFirstRel e x
    · rw [List.orderedInsert, if_pos hr]
      by_cases hk : entry_sort_key e == k <;> simp [List.filter_cons, hk]
    · rw [List.orderedInsert, if_neg hr]
      have hlt : entry_sort_key e < entry_sort_key x := lt_of_not_le hr
      by_cases hk : entry_sort_key e == k
      · have hek : entry_sort_key e = k := by simpa using hk
        have hxk : (entry_sort_key x == k) = false := by
          simp only [beq_eq_false_iff_ne, ne_eq]
          intro hx
          rw [hek] at hlt
          exact absurd hx (ne_of_gt hlt)
        simp [List.filter_cons, hxk, ih, hk]
      · simp [List.filter_cons, ih, hk]

lemma sort_filter_key (k : Int) :
    ∀ l : List Entry,
      (sort_entries_newest_first l).filter (fun x => entry_sort_key x == k)
        = l.filter (fun x => entry_sort_key x == k) := by
  intro l
  induction l with
  | nil => rfl
  | cons x xs ih =>
    rw [sort_entries_newest_first, List.insertionSort]
    rw [show List.insertionSort newestFirstRel xs = sort_entries_newest_first xs from rfl]
    rw [orderedInsert_filter_key, ih]
    by_cases hk : entry_sort_key x == k <;> simp [List.filter_cons, hk]

/-- Counterexample for C4: an entry with an absent timestamp is sorted as the
Unix epoch, so it lands *before* an entry whose parsed timestamp is earlier
than the epoch — not after all timestamped entries as claimed. -/
theorem sort_absent_not_after_all_timestamped_cex :
    tEntry3.published_parsed = none ∧ tEntry3.updated_parsed = none
    ∧ preEpochEntry.published_parsed = some (-1)
    ∧ sort_entries_newest_first [preEpochEntry, tEntry3] = [tEntry3, preEpochEntry] :=
  ⟨rfl, rfl, rfl, by decide⟩

/-- Claim C4 (amended): the sort is the stable descending sort by the key
that maps an absent timestamp to the Unix epoch: the output is a permutation
of the input, keys are non-increasing along it, entries with equal keys —
in particular all absent-timestamp entries — keep their original relative
order, and the spec's [T1, T2, T3-absent] example yields [T2, T1, T3].
(Absent-timestamp entries therefore come after all entries dated strictly
after the epoch, but not after entries dated at or before it.) -/
theorem sort_entries_stable_descending_epoch :
    ∀ l : List Entry,
      (sort_entries_newest_first l).Perm l
      ∧ List.Pairwise (fun a b => entry_sort_key b ≤ entry_sort_key a)
          (sort_entries_newest_first l)
      ∧ (∀ k : Int,
          (sort_entries_newest_first l).filter (fun x => entry_sort_key x == k)
            = l.filter (fun x => entry_sort_key x == k))
      ∧ sort_entries_newest_first [tEntry1, tEntry2, tEntry3] = [tEntry2, tEntry1, tEntry3] := by
  intro l
  refine ⟨List.perm_insertionSort _ l, ?_, fun k => sort_filter_key k l, by decide⟩
  exact List.sorted_insertionSort newestFirstRel l

lemma cycleLoop_break (dk : Entry → Bool) (mp now : Nat) :
    ∀ (entries : List Entry) (posted : Nat) (db : Ledger), mp ≤ posted →
      cycleLoop dk mp now posted db entries = ⟨db, posted, [], [], [], false⟩ := by
  intro entries posted db h
  cases entries with
  | nil => rfl
  | cons e rest =>
    simp only [cycleLoop]
    rw [if_pos h]

lemma cycleLoop_posted_le (dk : Entry → Bool) (mp now : Nat) :
    ∀ (entries : List Entry) (posted : Nat) (db : Ledger), posted ≤ mp →
      (cycleLoop dk mp now posted db entries).posted ≤ mp := by
  intro entries
  induction entries with
  | nil => intro posted db h; exact h
  | cons e rest ih =>
    intro posted db h
    simp only [cycleLoop]
    split_ifs with h1 h2 h3 h4
    · exact h
    · exact ih posted db h
    · exact ih posted db h
    · exact ih (posted + 1) _ (by omega)
    · exact h

lemma cycleLoop_not_attempted_of_has (dk : Entry → Bool) (mp now : Nat) (e : Entry) :
    ∀ (entries : List Entry) (posted : Nat) (db : Ledger),
      db_has db (normalize_id e) = true →
      e ∉ (cycleLoop dk mp now posted db entries).attempts := by
  intro entries
  induction entries with
  | nil => intro posted db _; simp [cycleLoop]
  | cons x rest ih =>
    intro posted db hdb
    simp only [cycleLoop]
    split_ifs with h1 h2 h3 h4
    · simp
    · exact ih posted db hdb
    · exact ih posted db hdb
    · simp only [withDelivered, List.mem_cons, not_or]
      refine ⟨fun he => h3 (he ▸ hdb), ?_⟩
      exact ih (posted + 1) _ (db_has_db_add_mono _ _ _ _ hdb)
    · simp only [List.mem_singleton]
      exact fun he => h3 (he ▸ hdb)

/-- Claim C1: an item whose id is in the ledger when it is examined is
skipped: the step leaves the table, the post counter, the delivery attempts,
the records and the abort flag exactly as if the item were absent (only the
`db_has` consultation trace grows), and — since the ledger only ever grows —
delivery is never invoked for such an item anywhere in the cycle. -/
theorem cycle_skips_item_already_in_ledger :
    ∀ (dk : Entry → Bool) (mp now posted : Nat) (db : Ledger) (e : Entry),
      db_has db (normalize_id e) = true →
      (∀ rest : List Entry,
        (cycleLoop dk mp now posted db (e :: rest)).db
            = (cycleLoop dk mp now posted db rest).db
        ∧ (cycleLoop dk mp now posted db (e :: rest)).posted
            = (cycleLoop dk mp now posted db rest).posted
        ∧ (cycleLoop dk mp now posted db (e :: rest)).attempts
            = (cycleLoop dk mp now posted db rest).attempts
        ∧ (cycleLoop dk mp now posted db (e :: rest)).recorded
            = (cycleLoop dk mp now posted db rest).recorded
        ∧ (cycleLoop dk mp now posted db (e :: rest)).aborted
            = (cycleLoop dk mp now posted db rest).aborted)
      ∧ (∀ entries : List Entry,
          e ∉ (cycleLoop dk mp now posted db entries).attempts) := by
  intro dk mp now posted db e h
  constructor
  · intro rest
    by_cases h1 : mp ≤ posted
    · rw [cycleLoop_break dk mp now (e :: rest) posted db h1,
        cycleLoop_break dk mp now rest posted db h1]
      exact ⟨rfl, rfl, rfl, rfl, rfl⟩
    · have hstep : cycleLoop dk mp now posted db (e :: rest)
          = if pyStrip (e.title.getD "") = "" ∨ pyStrip (e.link.getD "") = "" then
              cycleLoop dk mp now posted db rest
            else withQuery e (cycleLoop dk mp now posted db rest) := by
        simp only [cycleLoop]
        rw [if_neg h1]
        by_cases h2 : pyStrip (e.title.getD "") = "" ∨ pyStrip (e.link.getD "") = ""
        · rw [if_pos h2, if_pos h2]
        · rw [if_neg h2, if_neg h2, if_pos h]
      rw [hstep]
      by_cases h2 : pyStrip (e.title.getD "") = "" ∨ pyStrip (e.link.getD "") = ""
      · rw [if_pos h2]
        exact ⟨rfl, rfl, rfl, rfl, rfl⟩
      · rw [if_neg h2]
        exact ⟨rfl, rfl, rfl, rfl, rfl⟩
  · exact fun entries => cycleLoop_not_attempted_of_has dk mp now e entries posted db h

/-- Witness for C1: with `id1` already recorded, the fresh-looking entry
`ce1` (same id) is never delivered in a cycle that does deliver `ce2`. -/
theorem cycle_skips_item_already_in_ledger_witness :
    db_has [⟨"id1", "Old", "https://old", 3⟩] (normalize_id ce1) = true
    ∧ ce1 ∉ (cycleLoop deliverAlways 4 7 0
        [⟨"id1", "Old", "https://old", 3⟩] [ce1, ce2]).attempts :=
  ⟨by decide,
    (cycle_skips_item_already_in_ledger deliverAlways 4 7 0
      [⟨"id1", "Old", "https://old", 3⟩] ce1 (by decide)).2 [ce1, ce2]⟩

/-- Claim C3: the post counter never exceeds `maxPostsPerCycle`; once the cap
is reached the loop stops — remaining items are neither delivered, nor
recorded, nor even looked up — and with a cap of 2 and five new eligible
items exactly the first two are delivered and recorded while ids 3–5 stay
absent from the ledger. -/
theorem per_cycle_cap_enforced :
    (∀ (dk : Entry → Bool) (mp now posted : Nat) (db : Ledger) (entries : List Entry),
      posted ≤ mp → (cycleLoop dk mp now posted db entries).posted ≤ mp)
    ∧ (∀ (dk : Entry → Bool) (mp now posted : Nat) (db : Ledger) (entries : List Entry),
      mp ≤ posted → cycleLoop dk mp now posted db entries = ⟨db, posted, [], [], [], false⟩)
    ∧ runCycle deliverAlways 2 7 [] [ce1, ce2, ce3, ce4, ce5]
        = ⟨[⟨"id1", "Title 1", "https://ex/1", 7⟩, ⟨"id2", "Title 2", "https://ex/2", 7⟩],
            2, [ce1, ce2], [ce1, ce2], [ce1, ce2], false⟩
    ∧ db_has (runCycle deliverAlways 2 7 [] [ce1, ce2, ce3, ce4, ce5]).db "id3" = false
    ∧ db_has (runCycle deliverAlways 2 7 [] [ce1, ce2, ce3, ce4, ce5]).db "id4" = false
    ∧ db_has (runCycle deliverAlways 2 7 [] [ce1, ce2, ce3, ce4, ce5]).db "id5" = false := by
  refine ⟨?_, ?_, by decide, by decide, by decide, by decide⟩
  · intro dk mp now posted db entries h
    exact cycleLoop_posted_le dk mp now entries posted db h
  · intro dk mp now posted db entries h
    exact cycleLoop_break dk mp now entries posted db h

/-- Witness for C3: the cap bound and the stop-at-cap equation at concrete
inputs. -/
theorem per_cycle_cap_enforced_witness :
    (cycleLoop deliverAlways 2 7 0 [] [ce1, ce2, ce3]).posted ≤ 2
    ∧ cycleLoop deliverAlways 2 7 5 [] [ce1] = ⟨[], 5, [], [], [], false⟩ :=
  ⟨per_cycle_cap_enforced.1 deliverAlways 2 7 0 [] [ce1, ce2, ce3] (by decide),
    per_cycle_cap_enforced.2.1 deliverAlways 2 7 5 [] [ce1] (by decide)⟩

/-- Counterexample for C7: when delivery of the first eligible item raises,
the cycle does *not* continue to the next candidate — the exception escapes
the unprotected loop, so `ce2` is never looked up or attempted and the cycle
aborts (the non-recording and non-counting parts of the claim do hold). -/
theorem delivery_failure_aborts_cycle_cex :
    runCycle (deliverFailOn "id1") 4 7 [] [ce1, ce2] = ⟨[], 0, [ce1], [], [ce1], true⟩
    ∧ ce2 ∉ (runCycle (deliverFailOn "id1") 4 7 [] [ce1, ce2]).attempts
    ∧ ce2 ∉ (runCycle (deliverFailOn "id1") 4 7 [] [ce1, ce2]).queried
    ∧ (runCycle (deliverFailOn "id1") 4 7 [] [ce1, ce2]).aborted = true :=
  ⟨by decide, by decide, by decide, by decide⟩

/-- Claim C7 (amended): when delivery of an item fails, the item is not
recorded (table unchanged), the failure does not consume cap (the counter is
unchanged), but the cycle *aborts* at that item: no later candidate is
examined, delivered or recorded in that cycle — the exception is handled
only at the cycle boundary. -/
theorem delivery_failure_not_recorded_not_counted :
    ∀ (dk : Entry → Bool) (mp now posted : Nat) (db : Ledger) (e : Entry) (rest : List Entry),
      ¬ mp ≤ posted →
      pyStrip (e.title.getD "") ≠ "" →
      pyStrip (e.link.getD "") ≠ "" →
      db_has db (normalize_id e) = false →
      dk e = false →
      cycleLoop dk mp now posted db (e :: rest) = ⟨db, posted, [e], [], [e], true⟩ := by
  intro dk mp now posted db e rest h1 ht hl hdb hdk
  simp only [cycleLoop]
  rw [if_neg h1, if_neg (not_or.mpr ⟨ht, hl⟩), if_neg (by simp [hdb]), if_neg (by simp [hdk])]

/-- Witness for C7 (amended): the failing first delivery leaves the table
empty, the counter at zero, and aborts before `ce2`. -/
theorem delivery_failure_not_recorded_not_counted_witness :
    cycleLoop (deliverFailOn "id1") 4 7 0 [] [ce1, ce2] = ⟨[], 0, [ce1], [], [ce1], true⟩ :=
  delivery_failure_not_recorded_not_counted (deliverFailOn "id1") 4 7 0 [] ce1 [ce2]
    (by decide) (by decide) (by decide) (by decide) (by decide)

/-- Claim C8: an entry whose title or link strips to empty is dropped before
any side effect — it is never posted, never recorded, and the ledger is
never even consulted for it. -/
theorem invalid_entry_no_side_effects :
    ∀ (dk : Entry → Bool) (mp now posted : Nat) (db : Ledger) (entries : List Entry) (e : Entry),
      pyStrip (e.title.getD "") = "" ∨ pyStrip (e.link.getD "") = "" →
      e ∉ (cycleLoop dk mp now posted db entries).attempts
      ∧ e ∉ (cycleLoop dk mp now posted db entries).recorded
      ∧ e ∉ (cycleLoop dk mp now posted db entries).queried := by
  intro dk mp now posted db entries e he
  induction entries generalizing posted db with
  | nil => simp [cycleLoop]
  | cons x rest ih =>
    simp only [cycleLoop]
    split_ifs with h1 h2 h3 h4
    · simp
    · exact ih posted db
    · have hne : e ≠ x := fun hex => h2 (hex ▸ he)
      obtain ⟨ha, hr, hq⟩ := ih posted db
      refine ⟨ha, hr, ?_⟩
      simp only [withQuery, List.mem_cons, not_or]
      exact ⟨hne, hq⟩
    · have hne : e ≠ x := fun hex => h2 (hex ▸ he)
      obtain ⟨ha, hr, hq⟩ := ih (posted + 1)
        (db_add db (normalize_id x) (pyStrip (x.title.getD "")) (pyStrip (x.link.getD "")) now)
      simp only [withDelivered, List.mem_cons, not_or]
      exact ⟨⟨hne, ha⟩, ⟨hne, hr⟩, ⟨hne, hq⟩⟩
    · have hne : e ≠ x := fun hex => h2 (hex ▸ he)
      exact ⟨by simp [hne], by simp, by simp [hne]⟩

/-- Witness for C8: an entry whose title is whitespace-only triggers no
delivery, no record and no ledger lookup. -/
theorem invalid_entry_no_side_effects_witness :
    badEntry ∉ (cycleLoop deliverAlways 4 7 0 [] [badEntry, ce1]).attempts
    ∧ badEntry ∉ (cycleLoop deliverAlways 4 7 0 [] [badEntry, ce1]).recorded
    ∧ badEntry ∉ (cycleLoop deliverAlways 4 7 0 [] [badEntry, ce1]).queried :=
  invalid_entry_no_side_effects deliverAlways 4 7 0 [] [badEntry, ce1] badEntry (by decide)

end GamingNews
